import Mathlib

/-!
Verification of the GraphQL runner orchestration core
(`graphql/src/runner.rs`): the consistency guard `deployment_changed`,
the query orchestrator `execute`, and the result-size metrics recorder
`ResultSizeMetrics.observe`, shallowly embedded as pure Lean functions.
-/

namespace GraphNode

/-- Modelled from the spec: `DeploymentState` (from the `graph` crate, not in
src/) is `{ reorg_count, max_reorg_depth, latest_block_number }`; the field
name `latest_ethereum_block_number` is kept as the code under src/ uses it. -/
structure DeploymentState where
  reorg_count : Nat
  max_reorg_depth : Nat
  latest_ethereum_block_number : Nat
deriving DecidableEq, Repr

/-- Modelled from the spec: query-execution errors (from the `graph` crate, not
in src/). The code under src/ only names the `DeploymentReverted` variant;
every other error is abstracted as a numeric code. -/
inductive QErr where
  | deploymentReverted
  | other (code : Nat)
deriving DecidableEq, Repr

/-- Modelled from the spec: `QueryResults` (from the `graph` crate, not in
src/) is an accumulator of per-partition data and errors supporting
incremental append with union semantics. Data items are abstracted as
numeric codes. -/
structure QueryResults where
  data : List Nat
  errors : List QErr
deriving DecidableEq, Repr

def QueryResults.empty : QueryResults := ⟨[], []⟩

/-- Modelled from the spec: `QueryResults.append` merges a partition result
into the accumulator; data and errors both add to, never replace, earlier
entries. -/
def QueryResults.append (a b : QueryResults) : QueryResults :=
  ⟨a.data ++ b.data, a.errors ++ b.errors⟩

/-- Modelled from the spec: `QueryResults::from(e)` wraps a single
query-execution error as a results payload holding no data. -/
def QueryResults.ofError (e : QErr) : QueryResults := ⟨[], [e]⟩

/-- Outcome of `deployment_changed`: `pass` is `Ok(())`, `reverted` is
`Err(DeploymentReverted)`, `err e` is the propagated failure of the
post-state fetch, and `fatal` is the panic of the reorg-count assertion. -/
inductive GuardOutcome where
  | pass
  | reverted
  | err (e : QErr)
  | fatal
deriving DecidableEq, Repr

/-- Embedding of `GraphQlRunner::deployment_changed` (runner.rs lines
112-136). `allow` is `ENV_VARS.graphql.allow_deployment_change`;
`fetched` is the result of `store.deployment_state()`; `state` the
pre-execution state; `latest_block` the highest block observed. -/
def deployment_changed (allow : Bool) (fetched : Except QErr DeploymentState)
    (state : DeploymentState) (latest_block : Nat) : GuardOutcome :=
  if allow then .pass
  else
    match fetched with
    | .error e => .err e
    | .ok new_state =>
      if new_state.reorg_count < state.reorg_count then .fatal
      else if new_state.reorg_count > state.reorg_count then
        let n_blocks := new_state.max_reorg_depth *
          (new_state.reorg_count - state.reorg_count)
        if latest_block + n_blocks > state.latest_ethereum_block_number then
          .reverted
        else .pass
      else .pass

/-- One block-constraint partition as seen by the loop in
`GraphQlRunner::execute`: the outcome of `StoreResolver::at_block` (on
success, the resolver's `block_number()`), and the result the external
`execute_query` engine produces for this partition's selection set. -/
structure Partition where
  resolve : Except QErr Nat
  queryRes : QueryResults
deriving Repr

/-- Modelled from the spec: `Query::block_constraint`
(crate::execution::Query, whose implementation is not in src/) yields on
success a nonempty collection of partitions; the loop over it always
executes at least once. -/
abbrev BlockConstraints := { l : List Partition // l ≠ [] }

/-- Observable steps of one `execute` call, in order: a partition's block
being resolved against the pinned store, the external engine being invoked
for partition `idx`, and `query.log_execution(max_block)`. -/
inductive Event where
  | blockResolved (block : Nat)
  | engineInvoked (idx : Nat)
  | logged (maxBlock : Nat)
deriving DecidableEq, Repr

def Event.isEngine : Event → Bool
  | .engineInvoked _ => true
  | _ => false

/-- Result of the partition loop: either an early return because a
partition's block resolution failed, or completion with the trace, the
maximum observed block, and the merged results. -/
inductive LoopOut where
  | aborted (trace : List Event) (errRes : QueryResults)
  | done (trace : List Event) (maxBlock : Nat) (merged : QueryResults)
deriving Repr

/-- Embedding of the `for (bc, (selection_set, error_policy)) in
by_block_constraint` loop of `GraphQlRunner::execute` (runner.rs lines
187-218): resolve the partition's block, track the running maximum block,
invoke the engine, and append its result to the accumulator. -/
def runPartitions : List Partition → Nat → Nat → QueryResults → List Event → LoopOut
  | [], _, maxBlock, acc, trace => .done trace maxBlock acc
  | p :: rest, idx, maxBlock, acc, trace =>
    match p.resolve with
    | .error e => .aborted trace (QueryResults.ofError e)
    | .ok bn =>
      runPartitions rest (idx + 1) (Nat.max maxBlock bn) (acc.append p.queryRes)
        (trace ++ [.blockResolved bn, .engineInvoked idx])

/-- The environment of one `execute` call: outcomes of each fallible
collaborator step, in the order the code consults them, plus the
consistency-guard configuration and post-execution state fetch. -/
structure ExecInput where
  queryStore : Except QErr Unit
  preState : Except QErr DeploymentState
  apiSchema : Except QErr Unit
  queryNew : Except QErr Unit
  waitStats : Except QErr Unit
  decide : Except QErr Unit
  blockConstraint : Except QErr BlockConstraints
  allowChange : Bool
  postState : Except QErr DeploymentState

/-- Outcome of `execute`: `ok` is `Ok(results)`, `err` is `Err(results)`,
and `fatal` is the panic of the guard's reorg-count assertion. -/
inductive ExecOutcome where
  | ok (r : QueryResults)
  | err (r : QueryResults)
  | fatal
deriving DecidableEq, Repr

structure ExecOutput where
  trace : List Event
  outcome : ExecOutcome
deriving DecidableEq, Repr

/-- Embedding of `GraphQlRunner::execute` (runner.rs lines 138-226):
acquire the store, capture the baseline state, build the query, gate on the
admission controller, partition by block constraint, run the loop, log the
query shape with the maximum observed block, then run the consistency
guard; an error at any step maps to an error results payload. -/
def execute (inp : ExecInput) : ExecOutput :=
  match inp.queryStore with
  | .error e => ⟨[], .err (QueryResults.ofError e)⟩
  | .ok _ =>
    match inp.preState with
    | .error e => ⟨[], .err (QueryResults.ofError e)⟩
    | .ok state =>
      match inp.apiSchema with
      | .error e => ⟨[], .err (QueryResults.ofError e)⟩
      | .ok _ =>
        match inp.queryNew with
        | .error e => ⟨[], .err (QueryResults.ofError e)⟩
        | .ok _ =>
          match inp.waitStats with
          | .error e => ⟨[], .err (QueryResults.ofError e)⟩
          | .ok _ =>
            match inp.decide with
            | .error e => ⟨[], .err (QueryResults.ofError e)⟩
            | .ok _ =>
              match inp.blockConstraint with
              | .error e => ⟨[], .err (QueryResults.ofError e)⟩
              | .ok parts =>
                match runPartitions parts.val 0 0 QueryResults.empty [] with
                | .aborted trace errRes => ⟨trace, .err errRes⟩
                | .done trace maxBlock merged =>
                  match deployment_changed inp.allowChange inp.postState
                      state maxBlock with
                  | .pass => ⟨trace ++ [.logged maxBlock], .ok merged⟩
                  | .reverted => ⟨trace ++ [.logged maxBlock],
                      .err (QueryResults.ofError .deploymentReverted)⟩
                  | .err e => ⟨trace ++ [.logged maxBlock],
                      .err (QueryResults.ofError e)⟩
                  | .fatal => ⟨trace ++ [.logged maxBlock], .fatal⟩

/-- Every partition's block resolution succeeds. -/
def AllResolved (ps : List Partition) : Prop :=
  ∀ p ∈ ps, ∃ bn, p.resolve = .ok bn

/-- The events the loop emits for `ps` starting at partition index `idx`,
assuming every resolution succeeds. -/
def partitionEvents : List Partition → Nat → List Event
  | [], _ => []
  | p :: rest, idx =>
    match p.resolve with
    | .ok bn => .blockResolved bn :: .engineInvoked idx ::
        partitionEvents rest (idx + 1)
    | .error _ => []

/-- The running maximum of resolved block numbers, seeded with `mb`. -/
def resolvedMaxFrom : List Partition → Nat → Nat
  | [], mb => mb
  | p :: rest, mb =>
    match p.resolve with
    | .ok bn => resolvedMaxFrom rest (Nat.max mb bn)
    | .error _ => mb

def resolvedMax (ps : List Partition) : Nat := resolvedMaxFrom ps 0

/-- The union, in partition order, of all partitions' results. -/
def combineParts : List Partition → QueryResults
  | [] => QueryResults.empty
  | p :: rest => p.queryRes.append (combineParts rest)

theorem QueryResults.append_assoc (a b c : QueryResults) :
    (a.append b).append c = a.append (b.append c) := by
  simp [QueryResults.append]

theorem QueryResults.empty_append (a : QueryResults) :
    QueryResults.empty.append a = a := by
  simp [QueryResults.append, QueryResults.empty]

theorem runPartitions_done (ps : List Partition) (hres : AllResolved ps) :
    ∀ (idx mb : Nat) (acc : QueryResults) (tr : List Event),
    runPartitions ps idx mb acc tr =
      .done (tr ++ partitionEvents ps idx) (resolvedMaxFrom ps mb)
        (acc.append (combineParts ps)) := by
  induction ps with
  | nil =>
    intro idx mb acc tr
    simp [runPartitions, partitionEvents, resolvedMaxFrom, combineParts,
      QueryResults.append, QueryResults.empty]
  | cons p rest ih =>
    intro idx mb acc tr
    obtain ⟨bn, hbn⟩ := hres p (by simp)
    have hrest : AllResolved rest := fun q hq => hres q (by simp [hq])
    simp [runPartitions, hbn, partitionEvents, resolvedMaxFrom, combineParts,
      ih hrest, QueryResults.append_assoc, List.append_assoc]

/-- When every pre-loop step succeeds and every partition resolves, the
call's trace is the loop's events followed by the log event, and the
outcome is determined by the consistency guard's verdict on the merged
state. -/
theorem execute_after_loop (inp : ExecInput) (state : DeploymentState)
    (parts : BlockConstraints)
    (h1 : inp.queryStore = .ok ()) (h2 : inp.preState = .ok state)
    (h3 : inp.apiSchema = .ok ()) (h4 : inp.queryNew = .ok ())
    (h5 : inp.waitStats = .ok ()) (h6 : inp.decide = .ok ())
    (h7 : inp.blockConstraint = .ok parts)
    (hres : AllResolved parts.val) :
    execute inp =
      ⟨partitionEvents parts.val 0 ++ [Event.logged (resolvedMax parts.val)],
       match deployment_changed inp.allowChange inp.postState state
           (resolvedMax parts.val) with
       | .pass => .ok (combineParts parts.val)
       | .reverted => .err (QueryResults.ofError .deploymentReverted)
       | .err e => .err (QueryResults.ofError e)
       | .fatal => .fatal⟩ := by
  unfold execute
  simp only [h1, h2, h3, h4, h5, h6, h7]
  rw [runPartitions_done parts.val hres]
  simp only [List.nil_append, QueryResults.empty_append, resolvedMax]
  cases hgd : deployment_changed inp.allowChange inp.postState state
    (resolvedMaxFrom parts.val 0) <;> rfl

theorem partitionEvents_engine_count (ps : List Partition)
    (hres : AllResolved ps) :
    ∀ idx, (partitionEvents ps idx).countP Event.isEngine = ps.length := by
  induction ps with
  | nil => intro idx; rfl
  | cons p rest ih =>
    intro idx
    obtain ⟨bn, hbn⟩ := hres p (by simp)
    have hrest : AllResolved rest := fun q hq => hres q (by simp [hq])
    simp [partitionEvents, hbn, List.countP_cons, Event.isEngine, ih hrest]

theorem combineParts_data (ps : List Partition) :
    (combineParts ps).data = (ps.map fun p => p.queryRes.data).flatten := by
  induction ps with
  | nil => rfl
  | cons p rest ih => simp [combineParts, QueryResults.append, ih]

theorem combineParts_errors (ps : List Partition) :
    (combineParts ps).errors = (ps.map fun p => p.queryRes.errors).flatten := by
  induction ps with
  | nil => rfl
  | cons p rest ih => simp [combineParts, QueryResults.append, ih]

/-- C6: with no reorg between the two states the guard always passes,
whatever the observed block, the latest block, or the configuration flag. -/
theorem guard_passes_without_reorg (allow : Bool) (pre post : DeploymentState)
    (observed : Nat) (h : post.reorg_count = pre.reorg_count) :
    deployment_changed allow (.ok post) pre observed = .pass := by
  unfold deployment_changed
  simp [h]

/-- Witness for `guard_passes_without_reorg` at a concrete state. -/
theorem guard_passes_without_reorg_witness :
    deployment_changed false (.ok ⟨3, 10, 100⟩) ⟨3, 7, 50⟩ 1000 = .pass :=
  guard_passes_without_reorg false ⟨3, 7, 50⟩ ⟨3, 10, 100⟩ 1000 rfl

/-- C4: when the post-execution reorg count is strictly below the
pre-execution one, the enabled guard hits the assertion and aborts fatally,
rather than passing or returning a recoverable error. -/
theorem guard_fatal_on_reorg_count_decrease (pre post : DeploymentState)
    (observed : Nat) (h : post.reorg_count < pre.reorg_count) :
    deployment_changed false (.ok post) pre observed = .fatal := by
  unfold deployment_changed
  simp [h]

/-- Witness for `guard_fatal_on_reorg_count_decrease` at a concrete state. -/
theorem guard_fatal_on_reorg_count_decrease_witness :
    deployment_changed false (.ok ⟨1, 10, 100⟩) ⟨2, 10, 100⟩ 0 = .fatal :=
  guard_fatal_on_reorg_count_decrease ⟨2, 10, 100⟩ ⟨1, 10, 100⟩ 0 (by decide)

/-- C1 counterexample: with `pre = post = ⟨0, 10, 5⟩` and observed block 6
the bound `(post.reorg_count - pre.reorg_count) * max_reorg_depth + observed
≤ pre.latest_block_number` fails (`0 + 6 > 5`), yet the guard passes, because
the code checks the bound only after a reorg has happened. -/
theorem guard_iff_bound_counterexample :
    deployment_changed false (.ok ⟨0, 10, 5⟩) ⟨0, 10, 5⟩ 6 = .pass ∧
    ¬ ((0 - 0) * 10 + 6 ≤ 5) := by
  constructor
  · rfl
  · decide

/-- C1 (amended): for `post.reorg_count ≥ pre.reorg_count` the enabled guard
passes iff no reorg happened or
`(post.reorg_count - pre.reorg_count) * post.max_reorg_depth + observed ≤
pre.latest_block_number`; whenever it does not pass it fails with the
deployment-reverted error. -/
theorem guard_pass_iff_bound (pre post : DeploymentState) (observed : Nat)
    (h : pre.reorg_count ≤ post.reorg_count) :
    (deployment_changed false (.ok post) pre observed = .pass ↔
      (post.reorg_count = pre.reorg_count ∨
        (post.reorg_count - pre.reorg_count) * post.max_reorg_depth + observed ≤
          pre.latest_ethereum_block_number)) ∧
    (deployment_changed false (.ok post) pre observed ≠ .pass →
      deployment_changed false (.ok post) pre observed = .reverted) := by
  have hmul : (post.reorg_count - pre.reorg_count) * post.max_reorg_depth
      = post.max_reorg_depth * (post.reorg_count - pre.reorg_count) :=
    Nat.mul_comm _ _
  rcases Nat.lt_or_ge pre.reorg_count post.reorg_count with hlt | hge
  · have hne : post.reorg_count ≠ pre.reorg_count := Nat.ne_of_gt hlt
    have hnl : ¬ post.reorg_count < pre.reorg_count := Nat.not_lt.mpr h
    by_cases hb : observed + post.max_reorg_depth *
        (post.reorg_count - pre.reorg_count) >
          pre.latest_ethereum_block_number
    · simp only [deployment_changed, if_pos hlt, if_neg hnl, if_pos hb,
        Bool.false_eq_true, if_false]
      constructor
      · constructor
        · intro hcontra; cases hcontra
        · intro hcase
          rcases hcase with heq | hle
          · exact absurd heq hne
          · omega
      · intro _; trivial
    · simp only [deployment_changed, if_pos hlt, if_neg hnl, if_neg hb,
        Bool.false_eq_true, if_false]
      constructor
      · constructor
        · intro _; right; omega
        · intro _; trivial
      · intro hcontra; exact absurd rfl hcontra
  · have heq : post.reorg_count = pre.reorg_count := Nat.le_antisymm hge h
    simp [deployment_changed, heq]

/-- Witness for `guard_pass_iff_bound`: scenario C of the spec,
`pre = ⟨0, 0, 1000⟩`, `post = ⟨1, 10, 1005⟩`, observed block 985 passes. -/
theorem guard_pass_iff_bound_witness :
    deployment_changed false (.ok ⟨1, 10, 1005⟩) ⟨0, 0, 1000⟩ 985 = .pass :=
  ((guard_pass_iff_bound ⟨0, 0, 1000⟩ ⟨1, 10, 1005⟩ 985 (by decide)).1).mpr
    (Or.inr (by decide))

/-- C10: when a reorg happened, the enabled guard's verdict is given by the
bound computed from the POST-state's `max_reorg_depth`; the pre-state's
`max_reorg_depth` (here overwritten with an arbitrary `d`) plays no role. -/
theorem guard_uses_post_max_reorg_depth (pre post : DeploymentState)
    (observed d : Nat) (h : pre.reorg_count < post.reorg_count) :
    deployment_changed false (.ok post)
        { pre with max_reorg_depth := d } observed =
      (if observed + post.max_reorg_depth *
          (post.reorg_count - pre.reorg_count) >
            pre.latest_ethereum_block_number
       then .reverted else .pass) := by
  unfold deployment_changed
  have hnl : ¬ post.reorg_count < pre.reorg_count :=
    Nat.not_lt.mpr (Nat.le_of_lt h)
  simp [hnl, h]

/-- Witness for `guard_uses_post_max_reorg_depth`: with post depth 10 and a
pre depth overwritten to 0, spec scenario B still fails with a revert. -/
theorem guard_uses_post_max_reorg_depth_witness :
    deployment_changed false (.ok ⟨1, 10, 1005⟩)
      { reorg_count := 0, max_reorg_depth := 0,
        latest_ethereum_block_number := 1000 } 995 = .reverted := by
  have h := guard_uses_post_max_reorg_depth
    ⟨0, 7, 1000⟩ ⟨1, 10, 1005⟩ 995 0 (by decide)
  simpa using h

/-- Number of histogram buckets: `ResultSizeMetrics::new` registers bounds
`2^n` for `n` in `10..32`, i.e. 22 buckets between 1k and 4G. -/
def numBuckets : Nat := 22

/-- Upper bound of bucket `i`: `2^(i + 10)`, matching
`(10..32).map(|n| 2u64.pow(n))` in `ResultSizeMetrics::new`. -/
def bucketBound (i : Fin numBuckets) : Nat := 2 ^ (i.val + 10)

/-- Modelled from the spec: the prometheus `Histogram` (external library, not
in src/) keeps one cumulative counter per bucket (counting observations not
above the bucket's bound), a counter for all observations, and a running sum.
Sizes, which the code casts to `f64`, are kept as naturals. -/
structure Histogram where
  counts : Fin numBuckets → Nat
  count : Nat
  sum : Nat

/-- Modelled from the spec: `Histogram::observe` increments every bucket whose
bound is at least the observed value, the total count, and the sum. -/
def Histogram.observe (h : Histogram) (size : Nat) : Histogram :=
  { counts := fun i => if size ≤ bucketBound i then h.counts i + 1 else h.counts i,
    count := h.count + 1,
    sum := h.sum + size }

/-- Embedding of `ResultSizeMetrics` (runner.rs lines 23-26): a histogram of
result sizes and a gauge holding the maximum observed size. -/
structure ResultSizeMetrics where
  histogram : Histogram
  max_gauge : Nat

/-- Embedding of `ResultSizeMetrics::observe` (runner.rs lines 60-66):
record `size` in the histogram and raise the gauge if it is exceeded. -/
def ResultSizeMetrics.observe (m : ResultSizeMetrics) (size : Nat) :
    ResultSizeMetrics :=
  { histogram := m.histogram.observe size,
    max_gauge := if m.max_gauge < size then size else m.max_gauge }

/-- A concrete freshly-constructed recorder, used to instantiate witnesses. -/
def initialMetrics : ResultSizeMetrics :=
  { histogram := { counts := fun _ => 0, count := 0, sum := 0 },
    max_gauge := 0 }

/-- C7: `observe y` sets the gauge to `y` when `y` exceeds the current
maximum and leaves it unchanged otherwise; the maximum never decreases, and
every histogram bucket counter is non-decreasing across a call. -/
theorem observe_max_gauge_spec (m : ResultSizeMetrics) (y : Nat) :
    (m.max_gauge < y → (m.observe y).max_gauge = y) ∧
    (y ≤ m.max_gauge → (m.observe y).max_gauge = m.max_gauge) ∧
    m.max_gauge ≤ (m.observe y).max_gauge ∧
    (∀ i : Fin numBuckets,
      m.histogram.counts i ≤ (m.observe y).histogram.counts i) := by
  refine ⟨?_, ?_, ?_, ?_⟩
  · intro hlt
    simp [ResultSizeMetrics.observe, hlt]
  · intro hle
    simp [ResultSizeMetrics.observe, Nat.not_lt.mpr hle]
  · by_cases hlt : m.max_gauge < y
    · simp [ResultSizeMetrics.observe, hlt]
      omega
    · simp [ResultSizeMetrics.observe, hlt]
  · intro i
    simp only [ResultSizeMetrics.observe, Histogram.observe]
    split <;> omega

/-- Witness for `observe_max_gauge_spec` on the fresh recorder and size 5:
the gauge rises to 5 and bucket 0's counter does not decrease. -/
theorem observe_max_gauge_spec_witness :
    (initialMetrics.observe 5).max_gauge = 5 ∧
    initialMetrics.histogram.counts ⟨0, by decide⟩ ≤
      (initialMetrics.observe 5).histogram.counts ⟨0, by decide⟩ := by
  refine ⟨(observe_max_gauge_spec initialMetrics 5).1 (by decide), ?_⟩
  exact (observe_max_gauge_spec initialMetrics 5).2.2.2 ⟨0, by decide⟩

/-- C8 counterexample: `observe` is not idempotent on the recorder state;
observing size 5 twice from the fresh recorder leaves a histogram count of 2,
one call leaves 1, so the two states differ. -/
theorem observe_not_idempotent :
    (initialMetrics.observe 5).observe 5 ≠ initialMetrics.observe 5 := by
  intro hcontra
  have h := congrArg (fun m => m.histogram.count) hcontra
  simp [ResultSizeMetrics.observe, Histogram.observe, initialMetrics] at h

/-- C8 (amended): `observe` never fails (it is a total function on recorder
states) and is idempotent on the maximum gauge: a second `observe x` leaves
the gauge where the first put it; the histogram's total count, however,
grows by one on every call, so the whole state is not idempotent. -/
theorem observe_idempotent_on_max (m : ResultSizeMetrics) (x : Nat) :
    ((m.observe x).observe x).max_gauge = (m.observe x).max_gauge ∧
    ((m.observe x).observe x).histogram.count =
      (m.observe x).histogram.count + 1 := by
  constructor
  · simp only [ResultSizeMetrics.observe]
    by_cases h1 : m.max_gauge < x
    · simp [h1]
    · simp [h1]
  · rfl

/-- A single partition resolving to block 5 with one data item. -/
def samplePartition : Partition := ⟨.ok 5, ⟨[1], []⟩⟩

def sampleParts : BlockConstraints := ⟨[samplePartition], by simp⟩

/-- A call environment where every step succeeds and no reorg happens. -/
def passInput : ExecInput :=
  ⟨.ok (), .ok ⟨0, 0, 100⟩, .ok (), .ok (), .ok (), .ok (),
    .ok sampleParts, false, .ok ⟨0, 0, 100⟩⟩

/-- A single partition resolving to block 995, spec scenario B. -/
def revertPartition : Partition := ⟨.ok 995, ⟨[2], []⟩⟩

def revertParts : BlockConstraints := ⟨[revertPartition], by simp⟩

/-- Scenario B environment: one reorg of depth at most 10 behind a query
that observed block 995 of a chain whose pre-state head was block 1000. -/
def revertInput : ExecInput :=
  ⟨.ok (), .ok ⟨0, 0, 1000⟩, .ok (), .ok (), .ok (), .ok (),
    .ok revertParts, false, .ok ⟨1, 10, 1005⟩⟩

/-- A call environment where the admission controller rejects. -/
def rejectedInput : ExecInput :=
  ⟨.ok (), .ok ⟨0, 0, 100⟩, .ok (), .ok (), .ok (), .error (.other 7),
    .ok sampleParts, false, .ok ⟨0, 0, 100⟩⟩

theorem sampleParts_resolved : AllResolved sampleParts.val := by
  intro p hp
  simp only [sampleParts, List.mem_singleton] at hp
  exact ⟨5, by rw [hp]; rfl⟩

theorem revertParts_resolved : AllResolved revertParts.val := by
  intro p hp
  simp only [revertParts, List.mem_singleton] at hp
  exact ⟨995, by rw [hp]; rfl⟩

/-- A single partition whose block resolution fails. -/
def failPartition : Partition := ⟨.error (.other 3), ⟨[4], []⟩⟩

def failParts : BlockConstraints := ⟨[failPartition], by simp⟩

/-- A call environment where the only partition's resolution fails. -/
def resolveFailInput : ExecInput :=
  ⟨.ok (), .ok ⟨0, 0, 100⟩, .ok (), .ok (), .ok (), .ok (),
    .ok failParts, false, .ok ⟨0, 0, 100⟩⟩

/-- C2 counterexample: a query whose decomposition yields one partition,
yet the engine is invoked zero times, because the partition's block cannot
be resolved and the loop aborts. -/
theorem engine_skipped_on_resolution_failure :
    failParts.val.length = 1 ∧
    (execute resolveFailInput).trace.countP Event.isEngine = 0 :=
  ⟨rfl, rfl⟩

/-- C3: when every step up to the admission gate succeeds but the
controller rejects with error `e`, the call fails immediately with `e`: the
trace is empty (no block resolution, no engine invocation, no logging) and
the result payload carries only the controller's error, no data. -/
theorem admission_rejection_short_circuits (inp : ExecInput) (e : QErr)
    (st : DeploymentState)
    (h1 : inp.queryStore = .ok ()) (h2 : inp.preState = .ok st)
    (h3 : inp.apiSchema = .ok ()) (h4 : inp.queryNew = .ok ())
    (h5 : inp.waitStats = .ok ()) (h6 : inp.decide = .error e) :
    (execute inp).trace = [] ∧
    (execute inp).outcome = .err (QueryResults.ofError e) ∧
    (QueryResults.ofError e).data = [] := by
  unfold execute
  simp [h1, h2, h3, h4, h5, h6, QueryResults.ofError]

/-- Witness for `admission_rejection_short_circuits` on a concrete rejected
call. -/
theorem admission_rejection_short_circuits_witness :
    (execute rejectedInput).trace = [] ∧
    (execute rejectedInput).outcome = .err (QueryResults.ofError (.other 7)) ∧
    (QueryResults.ofError (QErr.other 7)).data = [] :=
  admission_rejection_short_circuits rejectedInput (.other 7) ⟨0, 0, 100⟩
    rfl rfl rfl rfl rfl rfl

/-- C2 (amended): when every pre-loop step succeeds and every partition's
block resolution succeeds, the engine is invoked exactly once per partition
(and at least once); the merged result is the union, in partition order, of
the partitions' data and error sets, and it is the value returned whenever
the consistency guard then passes. -/
theorem engine_runs_once_per_partition (inp : ExecInput)
    (state : DeploymentState) (parts : BlockConstraints)
    (h1 : inp.queryStore = .ok ()) (h2 : inp.preState = .ok state)
    (h3 : inp.apiSchema = .ok ()) (h4 : inp.queryNew = .ok ())
    (h5 : inp.waitStats = .ok ()) (h6 : inp.decide = .ok ())
    (h7 : inp.blockConstraint = .ok parts)
    (hres : AllResolved parts.val) :
    (execute inp).trace.countP Event.isEngine = parts.val.length ∧
    1 ≤ parts.val.length ∧
    (combineParts parts.val).data =
      (parts.val.map fun p => p.queryRes.data).flatten ∧
    (combineParts parts.val).errors =
      (parts.val.map fun p => p.queryRes.errors).flatten ∧
    (deployment_changed inp.allowChange inp.postState state
        (resolvedMax parts.val) = .pass →
      (execute inp).outcome = .ok (combineParts parts.val)) := by
  rw [execute_after_loop inp state parts h1 h2 h3 h4 h5 h6 h7 hres]
  refine ⟨?_, ?_, combineParts_data _, combineParts_errors _, ?_⟩
  · simp [List.countP_append, List.countP_cons, Event.isEngine,
      partitionEvents_engine_count parts.val hres 0]
  · exact List.length_pos.mpr parts.property
  · intro hg
    simp [hg]

/-- Witness for `engine_runs_once_per_partition`: the one-partition pass
environment invokes the engine once and returns its result. -/
theorem engine_runs_once_per_partition_witness :
    (execute passInput).trace.countP Event.isEngine = 1 ∧
    (execute passInput).outcome = .ok (combineParts sampleParts.val) := by
  have h := engine_runs_once_per_partition passInput ⟨0, 0, 100⟩ sampleParts
    rfl rfl rfl rfl rfl rfl rfl sampleParts_resolved
  exact ⟨h.1.trans rfl, h.2.2.2.2 rfl⟩

/-- C5: when all partitions complete but the consistency guard then fails
with a revert, the whole call returns the deployment-reverted error as its
payload, and that payload carries none of the merged partition data. -/
theorem guard_failure_discards_merged (inp : ExecInput)
    (state : DeploymentState) (parts : BlockConstraints)
    (h1 : inp.queryStore = .ok ()) (h2 : inp.preState = .ok state)
    (h3 : inp.apiSchema = .ok ()) (h4 : inp.queryNew = .ok ())
    (h5 : inp.waitStats = .ok ()) (h6 : inp.decide = .ok ())
    (h7 : inp.blockConstraint = .ok parts)
    (hres : AllResolved parts.val)
    (hguard : deployment_changed inp.allowChange inp.postState state
      (resolvedMax parts.val) = .reverted) :
    (execute inp).outcome = .err (QueryResults.ofError .deploymentReverted) ∧
    (QueryResults.ofError QErr.deploymentReverted).data = [] := by
  rw [execute_after_loop inp state parts h1 h2 h3 h4 h5 h6 h7 hres]
  simp [hguard, QueryResults.ofError]

/-- Witness for `guard_failure_discards_merged` on scenario B: the
partition succeeded with data, yet the call returns only the revert error. -/
theorem guard_failure_discards_merged_witness :
    (execute revertInput).outcome =
      .err (QueryResults.ofError .deploymentReverted) :=
  (guard_failure_discards_merged revertInput ⟨0, 0, 1000⟩ revertParts
    rfl rfl rfl rfl rfl rfl rfl revertParts_resolved (by decide)).1

/-- C9 counterexample: on a call rejected by the admission controller the
trace is empty, so no `logged` event is emitted: the query shape and max
observed block are NOT logged on every call. -/
theorem logging_skipped_on_rejection : (execute rejectedInput).trace = [] :=
  rfl

/-- C9 (amended): on every call that reaches and completes the partition
loop, the query shape and the maximum observed block are logged before the
call returns, whether the consistency guard passes, reverts, errors or
trips its assertion. -/
theorem logging_after_loop_unconditional (inp : ExecInput)
    (state : DeploymentState) (parts : BlockConstraints)
    (h1 : inp.queryStore = .ok ()) (h2 : inp.preState = .ok state)
    (h3 : inp.apiSchema = .ok ()) (h4 : inp.queryNew = .ok ())
    (h5 : inp.waitStats = .ok ()) (h6 : inp.decide = .ok ())
    (h7 : inp.blockConstraint = .ok parts)
    (hres : AllResolved parts.val) :
    Event.logged (resolvedMax parts.val) ∈ (execute inp).trace := by
  rw [execute_after_loop inp state parts h1 h2 h3 h4 h5 h6 h7 hres]
  simp

/-- Witness for `logging_after_loop_unconditional` on scenario B, a call
that fails with a revert yet still logs. -/
theorem logging_after_loop_unconditional_witness :
    Event.logged (resolvedMax revertParts.val) ∈ (execute revertInput).trace :=
  logging_after_loop_unconditional revertInput ⟨0, 0, 1000⟩ revertParts
    rfl rfl rfl rfl rfl rfl rfl revertParts_resolved

end GraphNode
